import Mathlib

/-!
Verification of the payment-notification ingestion and purchase-ledger
pipeline of the bikepacking repository.

The storage layer (the `book_purchases` table and its migrations) is embedded
from the SQL sources.  The request-handling pipeline (signature verifier,
event parser gate, resolver, ledger operation, HTTP endpoint) is not present
in the repository sources — only its shell-script tests, SQL migrations and
documentation are — so those components are modelled from the specification,
as marked on each definition.
-/

namespace Bikepacking

/-! ## Storage schema

From the SQL migrations: `create_book_purchases_table` (base columns,
originally with `UNIQUE(user_id, book_id)`), the migration that drops the
`(user_id, book_id)` unique constraint to allow repeat purchases,
`add_access_key_to_book_purchases.sql` (`access_key TEXT UNIQUE`), and the
payment-tracking migration that adds `payment_id TEXT` (nullable) with a
plain, non-unique index `idx_book_purchases_payment_id`. -/

/-- A row of `book_purchases` after all migrations.  Nullable columns
(`payment_id`, `payment_amount`, `access_key`) are `Option`; `user_id` and
`book_id` are `NOT NULL`. -/
structure PurchaseRow where
  id : Nat
  user_id : Nat
  book_id : Nat
  payment_id : Option String
  payment_provider : String
  payment_amount : Option Nat
  payment_currency : String
  access_key : Option String
  purchased_at : Nat
deriving DecidableEq, Repr

/-- Duplicate-freeness of a list, as a boolean (an SQL `UNIQUE` check over
the non-null values of a column). -/
def nodupBool {α : Type} [DecidableEq α] : List α → Bool
  | [] => true
  | x :: xs => (!(xs.contains x)) && nodupBool xs

/-- The non-null `access_key` values of a table. -/
def accessKeysOf (rows : List PurchaseRow) : List String :=
  rows.filterMap (fun r => r.access_key)

/-- The non-null `payment_id` values of a table. -/
def paymentIdsOf (rows : List PurchaseRow) : List String :=
  rows.filterMap (fun r => r.payment_id)

/-- The uniqueness constraints the final schema actually enforces on
`book_purchases`: after all migrations the only `UNIQUE` constraint is the
one on `access_key` (SQL `UNIQUE` ignores `NULL`s).  The original
`UNIQUE(user_id, book_id)` is dropped by the repeat-purchase migration, and
`payment_id` only ever gets the non-unique index
`idx_book_purchases_payment_id`. -/
def schemaAdmits (rows : List PurchaseRow) : Bool :=
  nodupBool (accessKeysOf rows)

/-- The constraint the spec asks of the storage layer — uniqueness of
`payment_id` — which no migration installs.  Stated separately so the gap
between the schema and the spec can be exhibited. -/
def paymentIdUnique (rows : List PurchaseRow) : Bool :=
  nodupBool (paymentIdsOf rows)

/-- A bare SQL `INSERT` into `book_purchases`: the table accepts the row
(no check involving `payment_id` exists in the schema). -/
def insertRow (rows : List PurchaseRow) (r : PurchaseRow) : List PurchaseRow :=
  rows ++ [r]

/-! ## Signature verifier

Modelled from the spec: the webhook handler itself is not among the
repository sources (only its shell-script tests and documentation are).
The spec's contract: HMAC-SHA256 over the raw body under the pre-shared
secret, base64-encoded (the test scripts compute exactly
`openssl dgst -sha256 -hmac SECRET -binary | base64`), compared against the
`x-square-hmacsha256-signature` header with a constant-time comparison;
`ConfigurationMissing` when the secret is absent.  The keyed hash is a
parameter `hmac : secret → body → encoded mac`; the claims under proof are
independent of its internals. -/

inductive VerifyResult where
  | Authentic
  | SignatureInvalid
  | ConfigurationMissing
deriving DecidableEq, Repr

/-- Number of mismatching positions between two character lists, always
traversing both lists in full — the accumulate-a-difference shape of a
constant-time comparison (no early exit on the first mismatch). -/
def diffCount : List Char → List Char → Nat
  | [], [] => 0
  | [], _ :: _ => 1
  | _ :: _, [] => 1
  | a :: as, b :: bs => (if a = b then 0 else 1) + diffCount as bs

/-- Constant-time equality of the supplied and the expected signature:
equal exactly when no position differs. -/
def constTimeEq (a b : String) : Bool :=
  diffCount a.toList b.toList == 0

/-- Modelled from the spec: the Signature Verifier.  Fails closed with
`ConfigurationMissing` when no secret is configured; otherwise compares the
header value against `hmac secret body` in constant time. -/
def verifySignature (hmac : String → String → String) (secret : Option String)
    (body sig : String) : VerifyResult :=
  match secret with
  | none => VerifyResult.ConfigurationMissing
  | some k =>
    if constTimeEq sig (hmac k body) then VerifyResult.Authentic
    else VerifyResult.SignatureInvalid

/-! ## Event model

Modelled from the spec's data model (§3) and the payloads the test scripts
send: `type` (`payment.updated`, `test.notification`, anything else),
`data.object.payment.id`, `.status`, `.buyer_email_address`,
`.metadata.book_id`, `.amount_money`. -/

inductive EventType where
  | PaymentUpdated
  | TestNotification
  | Other
deriving DecidableEq, Repr

inductive PaymentStatus where
  | Pending
  | Completed
  | Failed
  | Canceled
  | Other
deriving DecidableEq, Repr

/-- Modelled from the spec: the fields the core extracts from one delivery.
`itemId` is the `metadata.book_id` reference, already in internal (numeric)
form; both it and `buyerEmail` are optional in the envelope. -/
structure PaymentNotification where
  eventType : EventType
  paymentId : String
  paymentStatus : PaymentStatus
  buyerEmail : Option String
  itemId : Option Nat
  amountMinorUnits : Nat
  currencyCode : String
deriving DecidableEq, Repr

/-! ## User and item resolver

Modelled from the spec (§4.3): two independent fallible lookups against the
catalog/user stores, with short-circuiting when the notification lacks the
identifier. -/

structure User where
  id : Nat
  email : String
deriving DecidableEq, Repr

inductive ResolveError where
  | BuyerEmailMissing
  | ItemIdMissing
  | UserNotFound
  | ItemNotFound
deriving DecidableEq, Repr

def findUserByEmail (users : List User) (e : String) : Option User :=
  users.find? (fun u => u.email == e)

def findItemById (books : List Nat) (i : Nat) : Option Nat :=
  books.find? (fun b => b == i)

/-- Modelled from the spec: resolve buyer and item, in that order, with the
missing-identifier short circuits. -/
def resolve (users : List User) (books : List Nat)
    (buyerEmail : Option String) (itemId : Option Nat) :
    Except ResolveError (Nat × Nat) :=
  match buyerEmail with
  | none => Except.error ResolveError.BuyerEmailMissing
  | some e =>
    match itemId with
    | none => Except.error ResolveError.ItemIdMissing
    | some i =>
      match findUserByEmail users e with
      | none => Except.error ResolveError.UserNotFound
      | some u =>
        match findItemById books i with
        | none => Except.error ResolveError.ItemNotFound
        | some b => Except.ok (u.id, b)

/-! ## Purchase ledger

Modelled from the spec (§4.4): look up by `paymentId`, return the existing
record unchanged if found, otherwise insert a fresh record with a freshly
generated access key.  The cryptographically random access-key generator is
modelled as an injective fresh-key supply indexed by a per-state counter —
the deterministic counterpart of "collision probability cryptographically
negligible". -/

structure LedgerState where
  rows : List PurchaseRow
  nextId : Nat
  nextKey : Nat
deriving DecidableEq, Repr

/-- The fresh access-key supply: key number `n` (distinct keys for distinct
`n`, standing in for a CSPRNG that never collides). -/
def genAccessKey (n : Nat) : String :=
  String.mk (List.replicate (n + 1) 'k')

/-- The existence lookup on the ledger (`SELECT ... WHERE payment_id = $1`). -/
def findByPaymentId (rows : List PurchaseRow) (pid : String) : Option PurchaseRow :=
  rows.find? (fun r => r.payment_id == some pid)

/-- Modelled from the spec: `recordPurchase`.  If a record with this
`paymentId` exists it is returned unchanged and the state is untouched;
otherwise a new row is inserted carrying a fresh access key. -/
def recordPurchase (st : LedgerState) (pid : String) (uid bid amt : Nat)
    (cur prov : String) (now : Nat) : PurchaseRow × LedgerState :=
  match findByPaymentId st.rows pid with
  | some r => (r, st)
  | none =>
    let r : PurchaseRow :=
      { id := st.nextId, user_id := uid, book_id := bid,
        payment_id := some pid, payment_provider := prov,
        payment_amount := some amt, payment_currency := cur,
        access_key := some (genAccessKey st.nextKey), purchased_at := now }
    (r, { rows := insertRow st.rows r, nextId := st.nextId + 1,
          nextKey := st.nextKey + 1 })

/-- Modelled from the spec: the manual purchase endpoint
`POST /api/v1/books/(book_id)/purchase` documented in
`SQUARE_WEBHOOK_SETUP.md` — an authenticated user records a purchase with no
payment involved, so the inserted row carries no `payment_id`. -/
def manualPurchase (st : LedgerState) (uid bid now : Nat) : PurchaseRow × LedgerState :=
  let r : PurchaseRow :=
    { id := st.nextId, user_id := uid, book_id := bid,
      payment_id := none, payment_provider := "manual",
      payment_amount := none, payment_currency := "GBP",
      access_key := some (genAccessKey st.nextKey), purchased_at := now }
  (r, { rows := insertRow st.rows r, nextId := st.nextId + 1,
        nextKey := st.nextKey + 1 })

/-! ## Notification endpoint state machine

Modelled from the spec (§4.5, §6): verify → parse → gate → resolve →
record, with the enumerated terminal outcomes and the HTTP status map.
Parsing of the opaque JSON envelope is a parameter
`parse : String → Option PaymentNotification` (`none` = `MalformedPayload`);
it is applied only after the signature over the raw body has been
verified. -/

inductive RejectReason where
  | SignatureInvalid
  | MalformedPayload
  | Unresolvable
  | ConfigurationMissing
deriving DecidableEq, Repr

inductive Outcome where
  | Skipped
  | Recorded (r : PurchaseRow)
  | Rejected (e : RejectReason)
deriving DecidableEq, Repr

/-- Modelled from the spec: the HTTP status the endpoint returns for each
terminal outcome (`200` acknowledge, `401` untrusted sender, `422`
permanent failure; a missing secret is an operator error answered with a
server-side `500`, which the spec leaves outside the three mapped codes). -/
def statusCode : Outcome → Nat
  | Outcome.Skipped => 200
  | Outcome.Recorded _ => 200
  | Outcome.Rejected RejectReason.SignatureInvalid => 401
  | Outcome.Rejected RejectReason.MalformedPayload => 422
  | Outcome.Rejected RejectReason.Unresolvable => 422
  | Outcome.Rejected RejectReason.ConfigurationMissing => 500

/-- Modelled from the spec: one inbound delivery processed end to end.
Signature verification runs first, on the raw body; only `payment.updated`
events with `COMPLETED` status reach the resolver and the ledger, every
other verified, well-formed notification is acknowledged as `Skipped`. -/
def processDelivery (hmac : String → String → String)
    (parse : String → Option PaymentNotification) (secret : Option String)
    (users : List User) (books : List Nat) (st : LedgerState)
    (body sig : String) (now : Nat) : Outcome × LedgerState :=
  match verifySignature hmac secret body sig with
  | VerifyResult.ConfigurationMissing =>
    (Outcome.Rejected RejectReason.ConfigurationMissing, st)
  | VerifyResult.SignatureInvalid =>
    (Outcome.Rejected RejectReason.SignatureInvalid, st)
  | VerifyResult.Authentic =>
    match parse body with
    | none => (Outcome.Rejected RejectReason.MalformedPayload, st)
    | some n =>
      if n.eventType = EventType.PaymentUpdated ∧
          n.paymentStatus = PaymentStatus.Completed then
        match resolve users books n.buyerEmail n.itemId with
        | Except.error _ => (Outcome.Rejected RejectReason.Unresolvable, st)
        | Except.ok (uid, bid) =>
          let p := recordPurchase st n.paymentId uid bid n.amountMinorUnits
            n.currencyCode "square" now
          (Outcome.Recorded p.1, p.2)
      else
        (Outcome.Skipped, st)

/-! ## Helper lemmas -/

theorem diffCount_eq_zero_iff : ∀ as bs : List Char, diffCount as bs = 0 ↔ as = bs := by
  intro as
  induction as with
  | nil =>
    intro bs
    cases bs with
    | nil => simp [diffCount]
    | cons b bs => simp [diffCount]
  | cons a as ih =>
    intro bs
    cases bs with
    | nil => simp [diffCount]
    | cons b bs =>
      simp only [diffCount, Nat.add_eq_zero]
      constructor
      · rintro ⟨h1, h2⟩
        have hab : a = b := by
          by_contra hne
          simp [hne] at h1
        have : as = bs := (ih bs).1 h2
        simp [hab, this]
      · rintro h
        injection h with h1 h2
        refine ⟨by simp [h1], (ih bs).2 h2⟩

theorem constTimeEq_iff (a b : String) : constTimeEq a b = true ↔ a = b := by
  unfold constTimeEq
  rw [beq_iff_eq, diffCount_eq_zero_iff]
  constructor
  · intro h
    exact String.ext h
  · intro h
    rw [h]

theorem constTimeEq_self (a : String) : constTimeEq a a = true :=
  (constTimeEq_iff a a).2 rfl

theorem genAccessKey_injective : Function.Injective genAccessKey := by
  intro m n h
  have hlen := congrArg (fun s => s.data.length) h
  simpa [genAccessKey] using hlen

/-- The row `recordPurchase` inserts when the `paymentId` is fresh. -/
def freshRow (st : LedgerState) (pid : String) (uid bid amt : Nat)
    (cur prov : String) (now : Nat) : PurchaseRow :=
  { id := st.nextId, user_id := uid, book_id := bid,
    payment_id := some pid, payment_provider := prov,
    payment_amount := some amt, payment_currency := cur,
    access_key := some (genAccessKey st.nextKey), purchased_at := now }

/-- `recordPurchase` on a fresh `paymentId`, spelled out. -/
theorem recordPurchase_fresh (st : LedgerState) (pid : String) (uid bid amt : Nat)
    (cur prov : String) (now : Nat) (h : findByPaymentId st.rows pid = none) :
    recordPurchase st pid uid bid amt cur prov now =
      (freshRow st pid uid bid amt cur prov now,
       { rows := st.rows ++ [freshRow st pid uid bid amt cur prov now],
         nextId := st.nextId + 1, nextKey := st.nextKey + 1 }) := by
  unfold recordPurchase
  rw [h]
  rfl

/-- `recordPurchase` on an already-recorded `paymentId` is the no-op. -/
theorem recordPurchase_found (st : LedgerState) (pid : String)
    (uid bid amt : Nat) (cur prov : String) (now : Nat) (r : PurchaseRow)
    (h : findByPaymentId st.rows pid = some r) :
    recordPurchase st pid uid bid amt cur prov now = (r, st) := by
  unfold recordPurchase
  rw [h]

/-- A mismatching signature value is classified `SignatureInvalid`. -/
theorem verifySignature_mismatch (hmac : String → String → String)
    (k body sig : String) (hne : sig ≠ hmac k body) :
    verifySignature hmac (some k) body sig = VerifyResult.SignatureInvalid := by
  have hc : constTimeEq sig (hmac k body) = false := by
    by_contra hcc
    exact hne ((constTimeEq_iff _ _).1 (by simpa using hcc))
  simp [verifySignature, hc]

/-- A delivery with a mismatching signature stops at
`Rejected SignatureInvalid` with the ledger untouched. -/
theorem processDelivery_sig_mismatch (hmac : String → String → String)
    (parse : String → Option PaymentNotification) (k : String)
    (users : List User) (books : List Nat) (st : LedgerState)
    (body sig : String) (now : Nat) (hne : sig ≠ hmac k body) :
    processDelivery hmac parse (some k) users books st body sig now =
      (Outcome.Rejected RejectReason.SignatureInvalid, st) := by
  have hv := verifySignature_mismatch hmac k body sig hne
  simp only [processDelivery, hv]

/-- A lookup that misses a list also misses the list extended by a row with
a different `paymentId`. -/
theorem findByPaymentId_append_ne (rows : List PurchaseRow) (r : PurchaseRow)
    (pid : String) (h : findByPaymentId rows pid = none)
    (hne : r.payment_id ≠ some pid) :
    findByPaymentId (rows ++ [r]) pid = none := by
  unfold findByPaymentId at *
  rw [List.find?_append, h]
  have : (r.payment_id == some pid) = false := beq_false_of_ne hne
  simp [List.find?, this]

/-! ## Access-key bookkeeping -/

/-- The access-key bookkeeping invariant of a ledger state: every stored key
was drawn from the fresh supply below the current counter, and the stored
keys are pairwise distinct. -/
def keyInv (st : LedgerState) : Prop :=
  (∀ r ∈ st.rows, ∃ k, k < st.nextKey ∧ r.access_key = some (genAccessKey k)) ∧
  (accessKeysOf st.rows).Nodup

theorem fresh_key_not_mem (st : LedgerState) (h : keyInv st) :
    genAccessKey st.nextKey ∉ accessKeysOf st.rows := by
  intro hmem
  rcases List.mem_filterMap.1 hmem with ⟨r, hr, hkey⟩
  rcases h.1 r hr with ⟨k, hk, hkey'⟩
  rw [hkey'] at hkey
  have : k = st.nextKey := genAccessKey_injective (Option.some.inj hkey)
  omega

/-! ## Concrete fixtures (used by the witnesses) -/

/-- A concrete keyed-hash stand-in for instantiating the parametric
theorems on explicit inputs. -/
def hmacCat : String → String → String := fun k b => k ++ b

/-- The empty ledger. -/
def st0 : LedgerState := { rows := [], nextId := 0, nextKey := 0 }

/-- A parser fixture returning a fixed notification for any body. -/
def parseConst (n : PaymentNotification) : String → Option PaymentNotification :=
  fun _ => some n

/-- A completed `payment.updated` notification for a known user and item. -/
def notifCompleted : PaymentNotification :=
  { eventType := EventType.PaymentUpdated, paymentId := "P1",
    paymentStatus := PaymentStatus.Completed,
    buyerEmail := some "test@example.com", itemId := some 1,
    amountMinorUnits := 999, currencyCode := "GBP" }

/-- The same notification still in `Pending` status. -/
def notifPending : PaymentNotification :=
  { notifCompleted with paymentStatus := PaymentStatus.Pending }

/-- A `test.notification` event. -/
def notifTest : PaymentNotification :=
  { eventType := EventType.TestNotification, paymentId := "",
    paymentStatus := PaymentStatus.Other, buyerEmail := none, itemId := none,
    amountMinorUnits := 0, currencyCode := "GBP" }

/-- One registered user. -/
def users1 : List User := [{ id := 7, email := "test@example.com" }]

/-- One catalog item. -/
def books1 : List Nat := [1]

/-- An already-recorded purchase with `payment_id` `P1`. -/
def rowP1 : PurchaseRow :=
  { id := 1, user_id := 7, book_id := 1, payment_id := some "P1",
    payment_provider := "square", payment_amount := some 999,
    payment_currency := "GBP", access_key := some (genAccessKey 0),
    purchased_at := 5 }

/-- A ledger that already holds `rowP1`. -/
def stWithP1 : LedgerState := { rows := [rowP1], nextId := 2, nextKey := 1 }

/-- First insert of the duplicate-delivery race on `payment_id` `P1`. -/
def rowRaceA : PurchaseRow :=
  { id := 1, user_id := 7, book_id := 1, payment_id := some "P1",
    payment_provider := "square", payment_amount := some 999,
    payment_currency := "GBP", access_key := some (genAccessKey 0),
    purchased_at := 5 }

/-- Second insert of the same race: the concurrent handler also saw an empty
table at its existence lookup and inserts the same `payment_id`. -/
def rowRaceB : PurchaseRow :=
  { id := 2, user_id := 7, book_id := 1, payment_id := some "P1",
    payment_provider := "square", payment_amount := some 999,
    payment_currency := "GBP", access_key := some (genAccessKey 1),
    purchased_at := 6 }

/-- The table produced by the race: both bare inserts go through. -/
def raceRows : List PurchaseRow := insertRow (insertRow [] rowRaceA) rowRaceB

/-! ## Claim theorems -/

/-- C1: the claim says at most one `PurchaseRecord` can ever exist per
`paymentId` because the storage layer enforces a uniqueness constraint on
`payment_id`.  The schema contradicts this: `payment_id` only carries the
non-unique index `idx_book_purchases_payment_id`, and the former
`UNIQUE(user_id, book_id)` backup named by the setup guide was dropped by
the repeat-purchase migration, so when two concurrent deliveries of payment
`P1` both pass the existence lookup on the empty table, both bare inserts
are admitted and the table ends up with two rows for `P1` while still
satisfying every constraint the schema actually has. -/
theorem storage_admits_duplicate_payment_id :
    findByPaymentId [] "P1" = none ∧
    schemaAdmits raceRows = true ∧
    paymentIdUnique raceRows = false ∧
    (raceRows.filter (fun r => r.payment_id == some "P1")).length = 2 := by
  decide

/-- C4: with no configured signing secret the verifier fails closed with
`ConfigurationMissing` for every request, and the endpoint never accepts or
processes the delivery: the outcome is a rejection and the ledger is
untouched. -/
theorem missing_secret_fails_closed (hmac : String → String → String)
    (body sig : String) :
    verifySignature hmac none body sig = VerifyResult.ConfigurationMissing ∧
    ∀ (parse : String → Option PaymentNotification) (users : List User)
      (books : List Nat) (st : LedgerState) (now : Nat),
      processDelivery hmac parse none users books st body sig now =
        (Outcome.Rejected RejectReason.ConfigurationMissing, st) :=
  ⟨rfl, fun _ _ _ _ _ => rfl⟩

/-- C5: a later delivery carrying an already-recorded `paymentId` — with any
user, item, amount, currency or provider, matching the original or not — is
a no-op: `recordPurchase` returns the original record and leaves the
persisted state unchanged. -/
theorem duplicate_payment_id_is_noop (st : LedgerState) (pid : String)
    (uid bid amt : Nat) (cur prov : String) (now : Nat) (r : PurchaseRow)
    (h : findByPaymentId st.rows pid = some r) :
    recordPurchase st pid uid bid amt cur prov now = (r, st) :=
  recordPurchase_found st pid uid bid amt cur prov now r h

/-- C5 witness: replaying `P1` with a different item, amount, currency and
provider returns the original `rowP1` and the unchanged ledger. -/
theorem duplicate_payment_id_is_noop_witness :
    recordPurchase stWithP1 "P1" 9 4 1 "USD" "stripe" 99 = (rowP1, stWithP1) :=
  duplicate_payment_id_is_noop stWithP1 "P1" 9 4 1 "USD" "stripe" 99 rowP1 (by decide)

/-- C8: the HTTP status is a function of the terminal outcome: `200` exactly
for `Skipped` and `Recorded`, `401` exactly for
`Rejected SignatureInvalid`, and `422` exactly for
`Rejected MalformedPayload` and `Rejected Unresolvable`. -/
theorem status_code_matches_outcome (o : Outcome) :
    (statusCode o = 200 ↔ (o = Outcome.Skipped ∨ ∃ r, o = Outcome.Recorded r)) ∧
    (statusCode o = 401 ↔ o = Outcome.Rejected RejectReason.SignatureInvalid) ∧
    (statusCode o = 422 ↔ (o = Outcome.Rejected RejectReason.MalformedPayload ∨
      o = Outcome.Rejected RejectReason.Unresolvable)) := by
  cases o with
  | Skipped => simp [statusCode]
  | Recorded r => simp [statusCode]
  | Rejected e => cases e <;> simp [statusCode]

/-- C10: the final schema keeps `payment_id` nullable with only a non-unique
index, so it admits the raced duplicate table outright, and the manual
purchase endpoint inserts rows that carry no `payment_id` at all — rows the
schema likewise admits. -/
theorem storage_has_no_payment_id_constraint :
    (manualPurchase st0 7 1 0).1.payment_id = none ∧
    schemaAdmits ((manualPurchase st0 7 1 0).2.rows) = true ∧
    schemaAdmits raceRows = true ∧
    paymentIdUnique raceRows = false := by
  decide

/-- C2: with a configured secret the verifier returns `Authentic` exactly
when the header value equals the keyed hash of the raw body (the comparison
being the constant-time one), every other header value yields
`SignatureInvalid`, and on a mismatch the whole pipeline stops at
`Rejected SignatureInvalid` with the ledger untouched — whatever the
payload would have parsed to. -/
theorem verifier_accepts_iff_signature_matches (hmac : String → String → String)
    (k body sig : String) :
    (verifySignature hmac (some k) body sig = VerifyResult.Authentic ↔
      sig = hmac k body) ∧
    (verifySignature hmac (some k) body sig ≠ VerifyResult.Authentic →
      verifySignature hmac (some k) body sig = VerifyResult.SignatureInvalid) ∧
    (sig ≠ hmac k body →
      ∀ (parse : String → Option PaymentNotification) (users : List User)
        (books : List Nat) (st : LedgerState) (now : Nat),
        processDelivery hmac parse (some k) users books st body sig now =
          (Outcome.Rejected RejectReason.SignatureInvalid, st)) := by
  have hv : verifySignature hmac (some k) body sig =
      (if constTimeEq sig (hmac k body) then VerifyResult.Authentic
       else VerifyResult.SignatureInvalid) := rfl
  refine ⟨?_, ?_, ?_⟩
  · rw [hv]
    by_cases hc : constTimeEq sig (hmac k body) = true
    · simp [hc, (constTimeEq_iff sig (hmac k body)).1 hc, constTimeEq_self]
    · have : sig ≠ hmac k body := fun h => hc ((constTimeEq_iff _ _).2 h)
      simp [hc, this]
  · rw [hv]
    by_cases hc : constTimeEq sig (hmac k body) = true
    · simp [hc]
    · simp [hc]
  · intro hne parse users books st now
    exact processDelivery_sig_mismatch hmac parse k users books st body sig now hne

/-- C2 witness: a tampered signature on a body that would parse to a valid
Completed notification for the registered user and item is still rejected,
at the concrete inputs. -/
theorem verifier_accepts_iff_signature_matches_witness :
    processDelivery hmacCat (parseConst notifCompleted) (some "k") users1 books1
        st0 "body" "nope" 0 =
      (Outcome.Rejected RejectReason.SignatureInvalid, st0) :=
  (verifier_accepts_iff_signature_matches hmacCat "k" "body" "nope").2.2
    (by decide) (parseConst notifCompleted) users1 books1 st0 0

/-- C3: an authenticated, well-formed notification whose event type is not
`payment.updated` or whose payment status is not `COMPLETED` terminates as
`Skipped` with the ledger state returned unchanged — no `PurchaseRecord` is
created, regardless of how the buyer and item would have resolved. -/
theorem non_completed_never_recorded (hmac : String → String → String)
    (parse : String → Option PaymentNotification) (secret : Option String)
    (users : List User) (books : List Nat) (st : LedgerState)
    (body sig : String) (now : Nat) (n : PaymentNotification)
    (hparse : parse body = some n)
    (hgate : n.eventType ≠ EventType.PaymentUpdated ∨
      n.paymentStatus ≠ PaymentStatus.Completed) :
    (processDelivery hmac parse secret users books st body sig now).2 = st ∧
    (verifySignature hmac secret body sig = VerifyResult.Authentic →
      processDelivery hmac parse secret users books st body sig now =
        (Outcome.Skipped, st)) := by
  have hcond : ¬(n.eventType = EventType.PaymentUpdated ∧
      n.paymentStatus = PaymentStatus.Completed) := by
    rintro ⟨he, hs⟩
    rcases hgate with h | h
    · exact h he
    · exact h hs
  constructor
  · cases hv : verifySignature hmac secret body sig with
    | ConfigurationMissing => simp only [processDelivery, hv]
    | SignatureInvalid => simp only [processDelivery, hv]
    | Authentic =>
      simp only [processDelivery, hv, hparse]
      rw [if_neg hcond]
  · intro hsig
    simp only [processDelivery, hsig, hparse]
    rw [if_neg hcond]

/-- C3 witness: a verified `payment.updated` delivery in `Pending` status,
for the registered user and item, is skipped and leaves the empty ledger
empty. -/
theorem non_completed_never_recorded_witness :
    (processDelivery hmacCat (parseConst notifPending) (some "k") users1 books1
        st0 "body" "kbody" 0).2 = st0 ∧
    (verifySignature hmacCat (some "k") "body" "kbody" = VerifyResult.Authentic →
      processDelivery hmacCat (parseConst notifPending) (some "k") users1 books1
          st0 "body" "kbody" 0 = (Outcome.Skipped, st0)) :=
  non_completed_never_recorded hmacCat (parseConst notifPending) (some "k")
    users1 books1 st0 "body" "kbody" 0 notifPending rfl (Or.inr (by decide))

/-- C9 counterexample: the claim says a `test.notification` body is accepted
by the endpoint without a valid signature header.  On the modelled endpoint
signature verification runs before the event type is even looked at, so an
unsigned `test.notification` delivery is rejected with `401`, exactly as
Test 2 of `test_square_webhook.sh` expects for its unsigned
`test.notification` payload. -/
theorem test_notification_without_signature_rejected :
    processDelivery hmacCat (parseConst notifTest) (some "k") users1 books1 st0
        "body" "" 0 = (Outcome.Rejected RejectReason.SignatureInvalid, st0) ∧
    statusCode (Outcome.Rejected RejectReason.SignatureInvalid) = 401 := by
  decide

/-- C9 amended: `test.notification` events are not exempt from signature
verification; a correctly signed `test.notification` delivery is
acknowledged as `Skipped` with `200`, while one whose signature header does
not match is rejected with `401` like any other body. -/
theorem test_notification_verified_is_skipped (hmac : String → String → String)
    (parse : String → Option PaymentNotification) (k body : String)
    (users : List User) (books : List Nat) (st : LedgerState) (now : Nat)
    (n : PaymentNotification) (hparse : parse body = some n)
    (htest : n.eventType = EventType.TestNotification) :
    (processDelivery hmac parse (some k) users books st body (hmac k body) now =
      (Outcome.Skipped, st) ∧ statusCode Outcome.Skipped = 200) ∧
    (∀ sig, sig ≠ hmac k body →
      processDelivery hmac parse (some k) users books st body sig now =
        (Outcome.Rejected RejectReason.SignatureInvalid, st) ∧
      statusCode (Outcome.Rejected RejectReason.SignatureInvalid) = 401) := by
  refine ⟨⟨?_, rfl⟩, fun sig hne =>
    ⟨processDelivery_sig_mismatch hmac parse k users books st body sig now hne, rfl⟩⟩
  have hsig : verifySignature hmac (some k) body (hmac k body) =
      VerifyResult.Authentic := by
    simp [verifySignature, constTimeEq_self]
  simp only [processDelivery, hsig, hparse]
  rw [if_neg]
  rintro ⟨he, _⟩
  rw [htest] at he
  exact EventType.noConfusion he

/-- C9 amended witness: the signed `test.notification` delivery at concrete
inputs is skipped with `200`, and the same delivery with an empty signature
header is rejected with `401`. -/
theorem test_notification_verified_is_skipped_witness :
    (processDelivery hmacCat (parseConst notifTest) (some "k") users1 books1 st0
        "body" (hmacCat "k" "body") 0 = (Outcome.Skipped, st0) ∧
      statusCode Outcome.Skipped = 200) ∧
    (∀ sig, sig ≠ hmacCat "k" "body" →
      processDelivery hmacCat (parseConst notifTest) (some "k") users1 books1 st0
          "body" sig 0 = (Outcome.Rejected RejectReason.SignatureInvalid, st0) ∧
      statusCode (Outcome.Rejected RejectReason.SignatureInvalid) = 401) :=
  test_notification_verified_is_skipped hmacCat (parseConst notifTest) "k"
    "body" users1 books1 st0 0 notifTest rfl rfl

/-- C6: two Completed deliveries for the same buyer and item but distinct
`paymentId`s both insert: the ledger ends with the original rows plus two
new records sharing `(user_id, book_id)` — uniqueness is scoped to
`paymentId` only, and nothing prevents a user from buying the same item
twice. -/
theorem distinct_payment_ids_create_two_records (st : LedgerState)
    (pid1 pid2 : String) (uid bid amt1 amt2 : Nat) (cur prov : String)
    (t1 t2 : Nat) (hne : pid1 ≠ pid2)
    (h1 : findByPaymentId st.rows pid1 = none)
    (h2 : findByPaymentId st.rows pid2 = none) :
    ∃ r1 r2 : PurchaseRow,
      (recordPurchase ((recordPurchase st pid1 uid bid amt1 cur prov t1).2)
          pid2 uid bid amt2 cur prov t2).2.rows = st.rows ++ [r1] ++ [r2] ∧
      r1.payment_id = some pid1 ∧ r2.payment_id = some pid2 ∧
      r1.user_id = uid ∧ r2.user_id = uid ∧
      r1.book_id = bid ∧ r2.book_id = bid ∧ r1 ≠ r2 := by
  rw [recordPurchase_fresh st pid1 uid bid amt1 cur prov t1 h1]
  have hpid : (freshRow st pid1 uid bid amt1 cur prov t1).payment_id ≠ some pid2 := by
    simp [freshRow, hne]
  have h2' : findByPaymentId
      (st.rows ++ [freshRow st pid1 uid bid amt1 cur prov t1]) pid2 = none :=
    findByPaymentId_append_ne st.rows _ pid2 h2 hpid
  set st1 : LedgerState :=
    { rows := st.rows ++ [freshRow st pid1 uid bid amt1 cur prov t1],
      nextId := st.nextId + 1, nextKey := st.nextKey + 1 } with hst1
  rw [recordPurchase_fresh st1 pid2 uid bid amt2 cur prov t2 h2']
  refine ⟨freshRow st pid1 uid bid amt1 cur prov t1,
    freshRow st1 pid2 uid bid amt2 cur prov t2, ?_, rfl, rfl, rfl, rfl, rfl, rfl, ?_⟩
  · rfl
  · intro hcontra
    exact hne (Option.some.inj (congrArg PurchaseRow.payment_id hcontra))

/-- C6 witness: on the empty ledger, recording payments `P1` and `P2` for
user 7 and book 1 leaves two records for that same pair. -/
theorem distinct_payment_ids_create_two_records_witness :
    ∃ r1 r2 : PurchaseRow,
      (recordPurchase ((recordPurchase st0 "P1" 7 1 999 "GBP" "square" 1).2)
          "P2" 7 1 999 "GBP" "square" 2).2.rows = st0.rows ++ [r1] ++ [r2] ∧
      r1.payment_id = some "P1" ∧ r2.payment_id = some "P2" ∧
      r1.user_id = 7 ∧ r2.user_id = 7 ∧
      r1.book_id = 1 ∧ r2.book_id = 1 ∧ r1 ≠ r2 :=
  distinct_payment_ids_create_two_records st0 "P1" "P2" 7 1 999 999 "GBP"
    "square" 1 2 (by decide) (by decide) (by decide)

/-- C7: access keys are generated exactly once, at creation, and stay
unique.  Under the key invariant, one `recordPurchase` step (a) preserves
the invariant, (b) keeps the stored keys pairwise distinct, (c) never
removes or rewrites an existing row, (d) on a fresh `paymentId` stamps the
new record with the next key of the supply, distinct from every stored key,
and (e) on an already-recorded `paymentId` changes nothing, so no key is
ever regenerated or reassigned. -/
theorem access_keys_unique_and_generated_once (st : LedgerState) (pid : String)
    (uid bid amt : Nat) (cur prov : String) (now : Nat) (h : keyInv st) :
    keyInv (recordPurchase st pid uid bid amt cur prov now).2 ∧
    (accessKeysOf (recordPurchase st pid uid bid amt cur prov now).2.rows).Nodup ∧
    (∀ r ∈ st.rows, r ∈ (recordPurchase st pid uid bid amt cur prov now).2.rows) ∧
    (findByPaymentId st.rows pid = none →
      (recordPurchase st pid uid bid amt cur prov now).1.access_key =
        some (genAccessKey st.nextKey) ∧
      ∀ r ∈ st.rows,
        r.access_key ≠ (recordPurchase st pid uid bid amt cur prov now).1.access_key) ∧
    (∀ r, findByPaymentId st.rows pid = some r →
      recordPurchase st pid uid bid amt cur prov now = (r, st)) := by
  cases hfind : findByPaymentId st.rows pid with
  | some r =>
    rw [recordPurchase_found st pid uid bid amt cur prov now r hfind]
    refine ⟨h, h.2, fun r' hr' => hr',
      fun hnone => Option.noConfusion hnone, fun r' hr' => ?_⟩
    rw [Option.some.inj hr']
  | none =>
    rw [recordPurchase_fresh st pid uid bid amt cur prov now hfind]
    have hkeys : accessKeysOf (st.rows ++ [freshRow st pid uid bid amt cur prov now]) =
        accessKeysOf st.rows ++ [genAccessKey st.nextKey] := by
      simp [accessKeysOf, List.filterMap_append, freshRow]
    have hnotmem := fresh_key_not_mem st h
    have hnodup : (accessKeysOf
        (st.rows ++ [freshRow st pid uid bid amt cur prov now])).Nodup := by
      rw [hkeys, List.nodup_append]
      exact ⟨h.2, List.nodup_singleton _, by
        intro x hx hx'
        rw [List.mem_singleton] at hx'
        exact hnotmem (hx' ▸ hx)⟩
    have hinv : keyInv
        { rows := st.rows ++ [freshRow st pid uid bid amt cur prov now],
          nextId := st.nextId + 1, nextKey := st.nextKey + 1 } := by
      constructor
      · intro r hr
        rcases List.mem_append.1 hr with hold | hnew
        · rcases h.1 r hold with ⟨k, hk, hkey⟩
          exact ⟨k, Nat.lt_succ_of_lt hk, hkey⟩
        · rw [List.mem_singleton] at hnew
          exact ⟨st.nextKey, Nat.lt_succ_self _, by rw [hnew]; rfl⟩
      · exact hnodup
    refine ⟨hinv, hnodup, fun r' hr' => List.mem_append_left _ hr', fun _ => ⟨rfl, ?_⟩,
      fun r' hr' => Option.noConfusion hr'⟩
    intro r' hr' hkey
    exact hnotmem (List.mem_filterMap.2 ⟨r', hr', hkey⟩)

/-- C7 witness: one recording step from the empty ledger, where the key
invariant holds vacuously. -/
theorem access_keys_unique_and_generated_once_witness :
    keyInv (recordPurchase st0 "P1" 7 1 999 "GBP" "square" 0).2 ∧
    (accessKeysOf (recordPurchase st0 "P1" 7 1 999 "GBP" "square" 0).2.rows).Nodup ∧
    (∀ r ∈ st0.rows, r ∈ (recordPurchase st0 "P1" 7 1 999 "GBP" "square" 0).2.rows) ∧
    (findByPaymentId st0.rows "P1" = none →
      (recordPurchase st0 "P1" 7 1 999 "GBP" "square" 0).1.access_key =
        some (genAccessKey st0.nextKey) ∧
      ∀ r ∈ st0.rows,
        r.access_key ≠ (recordPurchase st0 "P1" 7 1 999 "GBP" "square" 0).1.access_key) ∧
    (∀ r, findByPaymentId st0.rows "P1" = some r →
      recordPurchase st0 "P1" 7 1 999 "GBP" "square" 0 = (r, st0)) :=
  access_keys_unique_and_generated_once st0 "P1" 7 1 999 "GBP" "square" 0
    ⟨fun r hr => absurd hr (by simp [st0]), by simp [st0, accessKeysOf]⟩

end Bikepacking
